import Mathlib

/-!
Verification development for the ECM Assistant rendering pipeline
(`server.js`): the word-wrap engine, the fixed-layout (PDF) paginator,
the line classifier feeding the flowable (DOCX) renderer, the footer /
registration-code generator, and the error-handling paths of the `/ask`
handler and the retrieval query.

Strings are modelled at the character-list level.  JavaScript regular
expressions used by the source are small and anchored, so each is
translated into an equivalent executable character-level function
(the `\s`, `\d`, `[A-Z]` classes are translated with the core ASCII
character predicates, matching the ASCII inputs the pipeline handles).
Pixel widths and vertical cursor positions are JavaScript floats in the
source; they are modelled as rationals, and the font measurement
function is kept abstract (`String → ℚ`), as the claims quantify over
the measurement function.
-/

/-! ### Character-level string utilities (JS `split`, `trim`, `replace`) -/

/-- Drop the maximal run of trailing whitespace characters
(the right half of JavaScript `String.prototype.trim`). -/
def dropTrailingWs : List Char → List Char
  | [] => []
  | c :: cs =>
    let r := dropTrailingWs cs
    if r.isEmpty && c.isWhitespace then [] else c :: r

/-- JavaScript `String.prototype.trim`: strip leading and trailing whitespace. -/
def jsTrim (s : String) : String :=
  String.mk (dropTrailingWs (s.data.dropWhile Char.isWhitespace))

/-- Prepend a character onto the first (currently accumulating) token
of a split result. -/
def consHead (c : Char) : List String → List String
  | [] => [String.mk [c]]
  | t :: ts => (String.mk [c] ++ t) :: ts

/-- JavaScript `str.split(/\s+/)` on a character list: separators are the
maximal runs of whitespace; a leading (resp. trailing) run contributes a
leading (resp. trailing) empty token, exactly as in JavaScript. -/
def splitWsChars : List Char → List String
  | [] => [""]
  | c :: cs =>
    if c.isWhitespace then
      if cs.head?.any Char.isWhitespace then splitWsChars cs
      else "" :: splitWsChars cs
    else consHead c (splitWsChars cs)

/-- `String(txt).split(/\s+/)` as used by `wrap` in `server.js`. -/
def jsSplitWs (s : String) : List String := splitWsChars s.data

/-- Join a list of row texts with single spaces (used to state the
row-order-preservation property). -/
def joinSp : List String → String
  | [] => ""
  | [x] => x
  | x :: y :: ys => x ++ " " ++ joinSp (y :: ys)

/-- Join where every element is preceded by one space (tail part of
`joinSp`). -/
def spJoin : List String → String
  | [] => ""
  | w :: ws => " " ++ w ++ spJoin ws

/-! ### Word-Wrap Engine (`wrap` in `server.js`)

```js
const wrap = (txt, x, maxWidth, size = fsBody, font = fontBody) => {
  const words = String(txt || "").split(/\s+/);
  let cur = "", rows = [];
  for (const w of words) {
    const test = cur ? `${cur} ${w}` : w;
    if (font.widthOfTextAtSize(test, size) > maxWidth && cur) {
      rows.push(cur); cur = w;
    } else cur = test;
  }
  rows.push(cur || "");
  return rows;
};
```
(`cur || ""` equals `cur`, as `"" || ""` is `""`.) -/

/-- The loop of `wrap`: fold the token list, accumulating the candidate
row `cur` and the committed rows `rows`. -/
def wrapGo (measure : String → ℚ) (maxW : ℚ) :
    List String → String → List String → List String
  | [], cur, rows => rows ++ [cur]
  | w :: ws, cur, rows =>
    if measure (if cur = "" then w else cur ++ " " ++ w) > maxW ∧ cur ≠ "" then
      wrapGo measure maxW ws w (rows ++ [cur])
    else
      wrapGo measure maxW ws (if cur = "" then w else cur ++ " " ++ w) rows

/-- The `wrap` helper of `server.js`, with the font measurement function
`font.widthOfTextAtSize(·, size)` abstracted to `measure`. -/
def wrap (measure : String → ℚ) (maxW : ℚ) (txt : String) : List String :=
  wrapGo measure maxW (jsSplitWs txt) "" []

/-! ### Text Sanitizer (`sanitizeForPdf` in `server.js`)

```js
function sanitizeForPdf(txt = "") {
  return String(txt).replace(/[^\x09\x0A\x0D\x20-\x7E£–—]/g, "").trim();
}
``` -/

/-- Membership in the character class `[\x09\x0A\x0D\x20-\x7E£–—]`. -/
def allowedPdfChar (c : Char) : Bool :=
  c == '\x09' || c == '\x0a' || c == '\x0d' ||
    (0x20 ≤ c.toNat && c.toNat ≤ 0x7e) || c == '£' || c == '–' || c == '—'

/-- `sanitizeForPdf`: delete disallowed characters, then trim. -/
def sanitizeForPdf (s : String) : String :=
  String.mk (dropTrailingWs ((s.data.filter allowedPdfChar).dropWhile Char.isWhitespace))

/-! ### Fixed-Layout Renderer state (`ensure` / `para` in `server.js`)

```js
let y = height - margin;
const ensure = (need = lh) => {
  if (y - need < margin) {
    page = pdfDoc.addPage();
    ({ width, height } = page.getSize());
    y = height - margin;
  }
};
const para = (txt, x, size = fsBody, font = fontBody) => {
  const safe = sanitizeForPdf(txt);
  const rows = wrap(safe, x, width - x - margin, size, font);
  for (const r of rows) { ensure(); draw(r, x, y, size, font); y -= lh; }
};
```
Pages are modelled as the list of previously finished pages
(most recent first) plus the rows of the current page; `y` is the
vertical cursor. -/

/-- The mutable page/cursor state of `buildPdfBufferStructured`. -/
structure RState where
  doneRev : List (List String)
  cur : List String
  y : ℚ
deriving DecidableEq

/-- Initial state: one fresh page, cursor at the top margin. -/
def RState.init (height margin : ℚ) : RState := ⟨[], [], height - margin⟩

/-- `ensure`: when the cursor minus the needed space falls below the
bottom margin, finish the current page, allocate a new one and reset the
cursor to the top margin. -/
def ensure (height margin need : ℚ) (st : RState) : RState :=
  if st.y - need < margin then ⟨st.cur :: st.doneRev, [], height - margin⟩ else st

/-- One iteration of the `para` loop: `ensure(); draw(r); y -= lh`. -/
def placeRow (height margin lh : ℚ) (r : String) (st : RState) : RState :=
  let s := ensure height margin lh st
  ⟨s.doneRev, s.cur ++ [r], s.y - lh⟩

/-- The rows `para` computes for a paragraph: wrap the sanitized text to
the printable width. -/
def paraRows (measure : String → ℚ) (pw : ℚ) (txt : String) : List String :=
  wrap measure pw (sanitizeForPdf txt)

/-- `para`: place every wrapped row, breaking pages as needed. -/
def para (height margin lh : ℚ) (measure : String → ℚ) (pw : ℚ)
    (txt : String) (st : RState) : RState :=
  (paraRows measure pw txt).foldl (fun s r => placeRow height margin lh r s) st

/-- Render a stream of paragraph texts with `para`. -/
def renderParas (height margin lh : ℚ) (measure : String → ℚ) (pw : ℚ)
    (txts : List String) (st : RState) : RState :=
  txts.foldl (fun s t => para height margin lh measure pw t s) st

/-- Total number of rows drawn across all pages. -/
def totalRows (st : RState) : ℕ :=
  st.cur.length + (st.doneRev.map List.length).sum

/-- Number of allocated pages (the current page included). -/
def pageCount (st : RState) : ℕ := st.doneRev.length + 1

/-! ### Line Classifier (the `/ask` for-loop over `lines`)

Each regular expression of the source is translated into an executable
character-level test, and each `replace(...).trim()` into the
corresponding stripping function.

```js
if (/^\d+[\).\s]/.test(t)) { ... bold 28, text t ... }
if (/^[A-Z][\).\s]/.test(t)) { const cleaned = t.replace(/^[A-Z][\).\s]+/, "").trim(); ... }
if (/^[-•]?\s*[A-Z].*:\s*$/.test(t)) { const labelText = t.replace(/^[-•]\s*/, "").trim(); ... }
if (/^[-•]/.test(t)) { const bulletText = t.replace(/^[-•]\s*/, "• ").trim(); ... }
``` -/

/-- The character class `[\).\s]` of the heading / sub-heading markers. -/
def isMarkerPunct (c : Char) : Bool :=
  c == ')' || c == '.' || c.isWhitespace

/-- `/^\d+[\).\s]/.test t`: one or more digits followed by `)`, `.` or
whitespace. -/
def testDigitMarker (t : String) : Bool :=
  !(t.data.takeWhile Char.isDigit).isEmpty &&
    (match t.data.dropWhile Char.isDigit with
     | c :: _ => isMarkerPunct c
     | [] => false)

/-- `/^[A-Z][\).\s]/.test t`: an uppercase letter followed by `)`, `.`
or whitespace. -/
def testUpperMarker (t : String) : Bool :=
  match t.data with
  | c :: c2 :: _ => c.isUpper && isMarkerPunct c2
  | _ => false

/-- `t.replace(/^[A-Z][\).\s]+/, "").trim()`: strip the lettered marker
(the letter and the maximal following run of `)`, `.`, whitespace). -/
def stripUpperMarker (t : String) : String :=
  match t.data with
  | c :: c2 :: rest =>
    if c.isUpper && isMarkerPunct c2 then
      jsTrim (String.mk ((c2 :: rest).dropWhile isMarkerPunct))
    else jsTrim t
  | _ => jsTrim t

/-- The regex `.` (any character but a line terminator). -/
def isDotChar (c : Char) : Bool := !(c == '\n' || c == '\r')

/-- A bullet glyph `[-•]`. -/
def isBulletChar (c : Char) : Bool := c == '-' || c == '•'

/-- The characters left after the optional leading bullet `[-•]?`. -/
def afterBullet (t : String) : List Char :=
  match t.data with
  | c :: cs => if isBulletChar c then cs else t.data
  | [] => []

/-- The `.*:\s*$` part of the label pattern on the characters after the
uppercase letter: ignoring trailing whitespace, the last character is a
colon and everything before it matches `.`. -/
def labelColonTail (s3 : List Char) : Bool :=
  match (dropTrailingWs s3).getLast? with
  | some ch => ch == ':' && (dropTrailingWs s3).dropLast.all isDotChar
  | none => false

/-- `/^[-•]?\s*[A-Z].*:\s*$/.test t`: optional bullet, optional
whitespace, an uppercase letter, anything, a colon, trailing whitespace
until the end.  The alternations of the anchored regex are
deterministic, so the test reduces to this direct scan. -/
def testLabel (t : String) : Bool :=
  match (afterBullet t).dropWhile Char.isWhitespace with
  | c :: s3 => c.isUpper && labelColonTail s3
  | [] => false

/-- `/^[-•]/.test t`. -/
def testBullet (t : String) : Bool :=
  match t.data with
  | c :: _ => isBulletChar c
  | [] => false

/-- `t.replace(/^[-•]\s*/, "").trim()` (label text: bullet removed,
colon retained). -/
def labelTextOf (t : String) : String :=
  match t.data with
  | c :: cs =>
    if isBulletChar c then jsTrim (String.mk (cs.dropWhile Char.isWhitespace))
    else jsTrim t
  | [] => jsTrim t

/-- `t.replace(/^[-•]\s*/, "• ").trim()` (bullet text: glyph normalized
to `• `). -/
def bulletTextOf (t : String) : String :=
  match t.data with
  | c :: cs =>
    if isBulletChar c then
      jsTrim (String.mk ('•' :: ' ' :: cs.dropWhile Char.isWhitespace))
    else jsTrim t
  | [] => jsTrim t

/-- Structural role of a classified line. -/
inductive Role
  | Blank
  | Heading
  | SubHeading
  | Label
  | Bullet
  | Body
deriving DecidableEq

/-- The Line Classifier: the priority-ordered chain of pattern tests of
the `/ask` loop, returning the role together with the displayed text
exactly as the source computes it. -/
def classify (t : String) : Role × String :=
  if t = "" then (Role.Blank, "")
  else if testDigitMarker t then (Role.Heading, t)
  else if testUpperMarker t then (Role.SubHeading, stripUpperMarker t)
  else if testLabel t then (Role.Label, labelTextOf t)
  else if testBullet t then (Role.Bullet, bulletTextOf t)
  else (Role.Body, t)

/-! ### Flowable (DOCX) renderer model

The `/ask` handler pushes one `Paragraph` per classified line, with the
run properties used by the source (text, half-point size, bold,
italics).  `new Paragraph("")` for a blank line is modelled as the block
`⟨"", 0, false, false⟩`. -/

/-- A styled flowable block: the run properties the handler sets. -/
structure DocxPara where
  text : String
  size : ℕ
  bold : Bool
  italics : Bool
deriving DecidableEq

/-- `new Paragraph("")` pushed for a blank line. -/
def blankPara : DocxPara := ⟨"", 0, false, false⟩

/-- The block pushed for one non-blank, non-footer line, by the
classifier's role (sizes 28/24/24/22/22, bold for heading, sub-heading
and label). -/
def paraOfLine (t : String) : DocxPara :=
  match classify t with
  | (Role.Heading, x) => ⟨x, 28, true, false⟩
  | (Role.SubHeading, x) => ⟨x, 24, true, false⟩
  | (Role.Label, x) => ⟨x, 24, true, false⟩
  | (Role.Bullet, x) => ⟨x, 22, false, false⟩
  | (Role.Body, x) => ⟨x, 22, false, false⟩
  | (Role.Blank, _) => blankPara

/-- The footer marker phrase tested with `t.startsWith(...)`. -/
def footerMarker : String := "This report was prepared using"

/-- JavaScript `s.startsWith(p)`. -/
def startsWithStr (s p : String) : Bool := p.data.isPrefixOf s.data

/-- The classification loop over the line stream: blank lines push an
empty paragraph, a line whose trimmed text starts with the footer marker
stops the whole loop (`break`), every other line pushes its classified
block. -/
def lineBlocks : List String → List DocxPara
  | [] => []
  | raw :: rest =>
    if jsTrim raw = "" then blankPara :: lineBlocks rest
    else if startsWithStr (jsTrim raw) footerMarker then []
    else paraOfLine (jsTrim raw) :: lineBlocks rest

/-- `reportText.replace(/\n{2,}/g, "\n")`: collapse every maximal run of
newlines to a single newline.  The flag records whether the previous
character was a newline. -/
def collapseNlGo : Bool → List Char → List Char
  | _, [] => []
  | prevNl, c :: cs =>
    if c = '\n' then
      if prevNl then collapseNlGo true cs else '\n' :: collapseNlGo true cs
    else c :: collapseNlGo false cs

/-- `str.split(/\n| {2,}/)`: separators are single newlines and maximal
runs of two or more spaces.  The flag records that the scanner is
consuming the remainder of a space-run separator. -/
def splitDLGo : Bool → List Char → List String
  | _, [] => [""]
  | inRun, c :: cs =>
    if inRun ∧ c = ' ' then splitDLGo true cs
    else if c = '\n' then "" :: splitDLGo false cs
    else if c = ' ' ∧ cs.head? = some ' ' then "" :: splitDLGo true cs
    else consHead c (splitDLGo false cs)

/-- The line stream the DOCX branch classifies:
`String(reportText || "").replace(/\n{2,}/g, "\n").split(/\n| {2,}/)`. -/
def docxLines (reportText : String) : List String :=
  splitDLGo false (collapseNlGo false reportText.data)

/-- The system-generated DOCX footer text (the template literal of the
handler), from the registration code and the vector count. -/
def docxFooterText (regRand : String) (count : ℕ) : String :=
  "\nThis report was prepared using the AIVS FAISS-indexed ECM knowledge base,\nderived entirely from verified UK Government, HSE, DEFRA and professional manuals.\nIt is provided for internal compliance and advisory purposes only and should not\nbe relied upon as a substitute for professional environmental or compliance advice.\n\nReg. No. AIVS/UK/" ++ regRand ++ "/" ++ Nat.repr count ++ "\n© AIVS Software Limited 2025 — All rights reserved."

/-- The centered title block (`bold, size 32`). -/
def titlePara : DocxPara := ⟨"ECM Assistant Report", 32, true, false⟩

/-- The centered `Generated <ts>` metadata block (`bold, size 24`). -/
def metaPara (ts : String) : DocxPara := ⟨"Generated " ++ ts, 24, true, false⟩

/-- The appended system footer block (`italics, size 20`). -/
def footerPara (regRand : String) (count : ℕ) : DocxPara :=
  ⟨docxFooterText regRand count, 20, false, true⟩

/-- The full ordered block list of the flowable document: title,
metadata, classified body (truncated at the footer marker), system
footer. -/
def docxParagraphs (ts reportText regRand : String) (count : ℕ) : List DocxPara :=
  titlePara :: metaPara ts :: (lineBlocks (docxLines reportText) ++ [footerPara regRand count])

/-! ### Registration code (`generateECMAssistant` and the `/ask` handler)

```js
const dateSeed = `${String(now.getFullYear()).slice(2)}${String(
  now.getMonth() + 1).padStart(2, "0")}${String(now.getDate()).padStart(2, "0")}`;
const randomPart = Math.floor(1000 + Math.random() * 9000);
const regRand = `${dateSeed}-${randomPart}`;
...  `Reg. No. AIVS/UK/${regRand}/${count}`
```
`Math.random()` is modelled as a rational `u` with `0 ≤ u < 1`; the
month argument is the 1-based month (`getMonth() + 1`). -/

/-- `String(n).padStart(2, "0")`. -/
def pad2 (n : ℕ) : String :=
  if (Nat.repr n).length < 2 then "0" ++ Nat.repr n else Nat.repr n

/-- `String(year).slice(2)`. -/
def twoDigitYear (y : ℕ) : String := String.mk ((Nat.repr y).data.drop 2)

/-- The date-seed segment: two-digit year, zero-padded month, zero-padded
day. -/
def dateSeed (y m d : ℕ) : String := twoDigitYear y ++ pad2 m ++ pad2 d

/-- `Math.floor(1000 + Math.random() * 9000)`. -/
def randSuffix (u : ℚ) : ℤ := Int.floor ((1000 : ℚ) + u * 9000)

/-- `` `${dateSeed}-${randomPart}` ``. -/
def regRandOf (y m d : ℕ) (u : ℚ) : String :=
  dateSeed y m d ++ "-" ++ toString (randSuffix u)

/-- The `Reg. No.` line of the generated footers. -/
def regNoLine (y m d : ℕ) (u : ℚ) (count : ℕ) : String :=
  "Reg. No. AIVS/UK/" ++ regRandOf y m d u ++ "/" ++ Nat.repr count

/-! ### Retrieval query (`queryFaissIndex`) and the `/ask` control flow

The asynchronous boundary calls (index search, generative call, the two
renderers, the Mailjet send) are modelled by explicit `Except` outcomes:
a thrown JavaScript error is `Except.error msg`. -/

/-- One search hit: similarity score and chunk text. -/
structure FaissMatch where
  score : ℚ
  text : String

/-- `queryFaissIndex`: filter hits by `score >= 0.03`, join their texts
with blank lines and report the count; any thrown error is caught and
replaced by the empty-context result `("", 0)`. -/
def queryFaissIndex (lookup : Except String (List FaissMatch)) : String × ℕ :=
  match lookup with
  | Except.error _ => ("", 0)
  | Except.ok ms =>
    let filtered := ms.filter (fun m => (3 : ℚ)/100 ≤ m.score)
    (String.intercalate "\n\n" (filtered.map FaissMatch.text), filtered.length)

/-- `if (context.length > 50000) context = context.slice(0, 50000)`. -/
def contextOf (joined : String) : String :=
  if joined.length > 50000 then String.mk (joined.data.take 50000) else joined

/-- The HTTP outcomes of the `/ask` handler. -/
inductive AskResponse
  | ok (question answer timestamp : String)
  | badRequest
  | serverError
deriving DecidableEq

/-- The `try { ... } catch (e) { console.error(...) }` around the Mailjet
send: the outcome is observed and discarded either way. -/
def tryCatchLog (mailSend : Except String Unit) : Unit :=
  match mailSend with
  | Except.ok _ => ()
  | Except.error _ => ()

/-- The `/ask` handler control flow over the boundary-call outcomes: a
missing/empty question is a 400; a throw from the generator or either
renderer is caught by the outer `catch` and becomes a 500; a Mailjet
failure is caught by the inner `catch` and logged only, after which the
success JSON `{ question, answer, timestamp }` is sent. -/
def askHandler (question : Option String) (gen : Except String String)
    (pdfRender : Except String (List String))
    (docxRender : Except String (List DocxPara))
    (mailSend : Except String Unit) (ts : String) : AskResponse :=
  match question with
  | none => AskResponse.badRequest
  | some q =>
    if q = "" then AskResponse.badRequest
    else
      match gen with
      | Except.error _ => AskResponse.serverError
      | Except.ok reportText =>
        match pdfRender with
        | Except.error _ => AskResponse.serverError
        | Except.ok _ =>
          match docxRender with
          | Except.error _ => AskResponse.serverError
          | Except.ok _ =>
            let _ := tryCatchLog mailSend
            AskResponse.ok q reportText ts

/-! ### Auxiliary lemmas -/

theorem str_ne_empty_of_data_cons {s : String} {c : Char} {l : List Char}
    (h : s.data = c :: l) : s ≠ "" := by
  intro he
  rw [he] at h
  exact List.noConfusion h

theorem append_ne_empty_left {a : String} (b : String) (ha : a ≠ "") :
    a ++ b ≠ "" := by
  intro h
  apply ha
  apply String.ext
  have hd := congrArg String.data h
  rw [String.data_append] at hd
  rcases List.append_eq_nil.mp hd with ⟨h1, _⟩
  exact h1

theorem joinSp_cons_ne (x : String) {L : List String} (h : L ≠ []) :
    joinSp (x :: L) = x ++ " " ++ joinSp L := by
  cases L with
  | nil => exact absurd rfl h
  | cons y ys => rfl

theorem joinSp_append_one {X : List String} (s : String) (h : X ≠ []) :
    joinSp (X ++ [s]) = joinSp X ++ " " ++ s := by
  induction X with
  | nil => exact absurd rfl h
  | cons x xs ih =>
    cases xs with
    | nil => rfl
    | cons y ys =>
      have h2 : (y :: ys : List String) ≠ [] := by simp
      calc joinSp (x :: y :: ys ++ [s])
          = x ++ " " ++ joinSp (y :: ys ++ [s]) := joinSp_cons_ne x (by simp)
        _ = x ++ " " ++ (joinSp (y :: ys) ++ " " ++ s) := by rw [ih h2]
        _ = (x ++ " " ++ joinSp (y :: ys)) ++ " " ++ s := by
              simp [String.append_assoc]
        _ = joinSp (x :: y :: ys) ++ " " ++ s := by rw [joinSp_cons_ne x h2]

theorem joinSp_last_append (rows : List String) (a b : String) :
    joinSp (rows ++ [a ++ b]) = joinSp (rows ++ [a]) ++ b := by
  cases rows with
  | nil => rfl
  | cons r rs =>
    rw [joinSp_append_one (a ++ b) (by simp), joinSp_append_one a (by simp)]
    simp [String.append_assoc]

theorem joinSp_cons_spJoin (x : String) (xs : List String) :
    joinSp (x :: xs) = x ++ spJoin xs := by
  induction xs generalizing x with
  | nil => exact (String.append_empty x).symm
  | cons y ys ih =>
    rw [joinSp_cons_ne x (by simp), ih y, spJoin, String.append_assoc,
      String.append_assoc]

theorem dropWhile_head_not {p : Char → Bool} {l m : List Char} {c : Char}
    (h : l.dropWhile p = c :: m) : p c = false := by
  induction l with
  | nil => exact List.noConfusion h
  | cons a as ih =>
    rw [List.dropWhile_cons] at h
    by_cases hp : p a = true
    · rw [if_pos hp] at h
      exact ih h
    · rw [if_neg hp] at h
      cases h
      exact Bool.eq_false_iff.mpr hp

theorem dropTrailingWs_cons (c : Char) (cs : List Char) :
    dropTrailingWs (c :: cs) =
      if (dropTrailingWs cs).isEmpty && c.isWhitespace then []
      else c :: dropTrailingWs cs := rfl

theorem dropTrailingWs_idem (l : List Char) :
    dropTrailingWs (dropTrailingWs l) = dropTrailingWs l := by
  induction l with
  | nil => rfl
  | cons c cs ih =>
    rw [dropTrailingWs_cons]
    by_cases h : (dropTrailingWs cs).isEmpty && c.isWhitespace
    · rw [if_pos h]; rfl
    · rw [if_neg h, dropTrailingWs_cons, ih]
      rw [if_neg h]

theorem dropTrailingWs_eq_cons {l m : List Char} {a : Char}
    (h : dropTrailingWs l = a :: m) :
    ∃ l', l = a :: l' ∧ m = dropTrailingWs l' := by
  cases l with
  | nil => exact List.noConfusion h
  | cons c cs =>
    rw [dropTrailingWs_cons] at h
    by_cases hc : (dropTrailingWs cs).isEmpty && c.isWhitespace
    · rw [if_pos hc] at h
      exact List.noConfusion h
    · rw [if_neg hc] at h
      cases h
      exact ⟨cs, rfl, rfl⟩

theorem consHead_ne_nil (c : Char) (r : List String) : consHead c r ≠ [] := by
  cases r with
  | nil => simp [consHead]
  | cons t ts => simp [consHead]

theorem splitWsChars_ne_nil (l : List Char) : splitWsChars l ≠ [] := by
  induction l with
  | nil => simp [splitWsChars]
  | cons c cs ih =>
    rw [splitWsChars]
    by_cases hw : c.isWhitespace
    · rw [if_pos hw]
      by_cases hh : cs.head?.any Char.isWhitespace
      · rw [if_pos hh]; exact ih
      · rw [if_neg hh]; simp
    · rw [if_neg hw]
      exact consHead_ne_nil c _

theorem splitWsChars_head_ne {c : Char} (cs : List Char)
    (hw : c.isWhitespace = false) {t : String} {ts : List String}
    (h : splitWsChars (c :: cs) = t :: ts) : t ≠ "" := by
  rw [splitWsChars, if_neg (by simp [hw])] at h
  rcases hr : splitWsChars cs with _ | ⟨t', ts'⟩
  · exact absurd hr (splitWsChars_ne_nil cs)
  · rw [hr, consHead] at h
    cases h
    exact str_ne_empty_of_data_cons
      (by rw [String.data_append]; rfl)

theorem splitWsChars_interior (l : List Char) :
    ∀ w ∈ ((splitWsChars l).tail).dropLast, w ≠ "" := by
  induction l with
  | nil => simp [splitWsChars]
  | cons c cs ih =>
    intro w hw
    rw [splitWsChars] at hw
    by_cases hws : c.isWhitespace
    · rw [if_pos hws] at hw
      by_cases hh : cs.head?.any Char.isWhitespace
      · rw [if_pos hh] at hw
        exact ih w hw
      · rw [if_neg hh] at hw
        rw [List.tail_cons] at hw
        cases cs with
        | nil => simp [splitWsChars] at hw
        | cons c2 cs2 =>
          have hc2 : c2.isWhitespace = false := by
            simp [List.head?] at hh
            exact hh
          rcases hr : splitWsChars (c2 :: cs2) with _ | ⟨t, ts⟩
          · exact absurd hr (splitWsChars_ne_nil _)
          · rw [hr] at hw
            cases ts with
            | nil => simp at hw
            | cons t2 ts2 =>
              rw [List.dropLast_cons₂] at hw
              rcases List.mem_cons.mp hw with h | h
              · subst h
                exact splitWsChars_head_ne cs2 hc2 hr
              · apply ih
                rw [hr, List.tail_cons]
                exact h
    · rw [if_neg hws] at hw
      rcases hr : splitWsChars cs with _ | ⟨t, ts⟩
      · exact absurd hr (splitWsChars_ne_nil cs)
      · rw [hr, consHead, List.tail_cons] at hw
        apply ih
        rw [hr, List.tail_cons]
        exact hw

theorem wrapGo_mem (measure : String → ℚ) (maxW : ℚ) (W : List String) :
    ∀ (ws : List String) (cur : String) (rows : List String),
      (∀ w ∈ ws, w ∈ W) → (measure cur ≤ maxW ∨ cur ∈ W) →
      (∀ r ∈ rows, measure r ≤ maxW ∨ r ∈ W) →
      ∀ r ∈ wrapGo measure maxW ws cur rows, measure r ≤ maxW ∨ r ∈ W := by
  intro ws
  induction ws with
  | nil =>
    intro cur rows _ hcur hrows r hr
    simp only [wrapGo] at hr
    rcases List.mem_append.mp hr with h | h
    · exact hrows r h
    · rw [List.mem_singleton] at h
      subst h
      exact hcur
  | cons w ws ih =>
    intro cur rows hws hcur hrows r hr
    simp only [wrapGo] at hr
    by_cases hcond :
        measure (if cur = "" then w else cur ++ " " ++ w) > maxW ∧ cur ≠ ""
    · rw [if_pos hcond] at hr
      refine ih w (rows ++ [cur])
        (fun x hx => hws x (List.mem_cons_of_mem _ hx))
        (Or.inr (hws w (List.mem_cons_self _ _))) ?_ r hr
      intro x hx
      rcases List.mem_append.mp hx with h | h
      · exact hrows x h
      · rw [List.mem_singleton] at h
        subst h
        exact hcur
    · rw [if_neg hcond] at hr
      have hcur' : measure (if cur = "" then w else cur ++ " " ++ w) ≤ maxW ∨
          (if cur = "" then w else cur ++ " " ++ w) ∈ W := by
        by_cases hc : cur = ""
        · rw [if_pos hc]
          exact Or.inr (hws w (List.mem_cons_self _ _))
        · have hA : ¬ measure (if cur = "" then w else cur ++ " " ++ w) > maxW :=
            fun hA => hcond ⟨hA, hc⟩
          exact Or.inl (not_lt.mp hA)
      exact ih _ rows (fun x hx => hws x (List.mem_cons_of_mem _ hx)) hcur' hrows r hr

theorem mem_dropLast_cons {α : Type} {x a : α} {l : List α}
    (h : x ∈ l.dropLast) : x ∈ (a :: l).dropLast := by
  cases l with
  | nil => simp at h
  | cons b bs =>
    rw [List.dropLast_cons₂]
    exact List.mem_cons_of_mem _ h

theorem wrapGo_join (measure : String → ℚ) (maxW : ℚ) :
    ∀ (ws : List String) (cur : String) (rows : List String),
      cur ≠ "" → (∀ w ∈ ws.dropLast, w ≠ "") →
      joinSp (wrapGo measure maxW ws cur rows) = joinSp (rows ++ [cur]) ++ spJoin ws := by
  intro ws
  induction ws with
  | nil =>
    intro cur rows _ _
    simp only [wrapGo, spJoin]
    exact (String.append_empty _).symm
  | cons w ws ih =>
    intro cur rows hcur hint
    simp only [wrapGo]
    by_cases hcond :
        measure (if cur = "" then w else cur ++ " " ++ w) > maxW ∧ cur ≠ ""
    · rw [if_pos hcond]
      by_cases hw : w = ""
      · have hws_nil : ws = [] := by
          cases ws with
          | nil => rfl
          | cons v vs =>
            refine absurd hw (hint w ?_)
            rw [List.dropLast_cons₂]
            exact List.mem_cons_self _ _
        subst hws_nil
        subst hw
        simp only [wrapGo]
        rw [joinSp_append_one "" (by simp), spJoin, spJoin]
        simp [String.append_empty]
      · rw [ih w (rows ++ [cur]) hw (fun x hx => hint x (mem_dropLast_cons hx))]
        rw [joinSp_append_one w (by simp), spJoin]
        simp [String.append_assoc]
    · rw [if_neg hcond, if_neg hcur]
      have hne : cur ++ " " ++ w ≠ "" :=
        append_ne_empty_left w (append_ne_empty_left " " hcur)
      rw [ih (cur ++ " " ++ w) rows hne (fun x hx => hint x (mem_dropLast_cons hx))]
      rw [String.append_assoc cur " " w, joinSp_last_append rows cur (" " ++ w), spJoin]
      simp [String.append_assoc]

theorem wrapGo_first (measure : String → ℚ) (maxW : ℚ) (t0 : String)
    (ts : List String) :
    wrapGo measure maxW (t0 :: ts) "" [] = wrapGo measure maxW ts t0 [] := by
  simp [wrapGo]

theorem joinSp_wrap_eq (measure : String → ℚ) (maxW : ℚ) (txt : String)
    (h : txt.data.head?.any Char.isWhitespace = false) :
    joinSp (wrap measure maxW txt) = joinSp (jsSplitWs txt) := by
  rcases hd : txt.data with _ | ⟨c, cs⟩
  · have he : txt = "" := String.ext (by rw [hd])
    subst he
    simp [wrap, jsSplitWs, splitWsChars, wrapGo, joinSp]
  · have hc : c.isWhitespace = false := by
      rw [hd] at h
      simpa using h
    rcases hsp : splitWsChars (c :: cs) with _ | ⟨t0, ts⟩
    · exact absurd hsp (splitWsChars_ne_nil _)
    · have ht0 : t0 ≠ "" := splitWsChars_head_ne cs hc hsp
      have hint : ∀ w ∈ ts.dropLast, w ≠ "" := by
        intro w hw
        apply splitWsChars_interior (c :: cs)
        rw [hsp, List.tail_cons]
        exact hw
      simp only [wrap, jsSplitWs]
      rw [hd, hsp, wrapGo_first, wrapGo_join measure maxW ts t0 [] ht0 hint,
        List.nil_append, joinSp_cons_spJoin t0 ts]
      rfl

theorem totalRows_ensure (height margin need : ℚ) (st : RState) :
    totalRows (ensure height margin need st) = totalRows st := by
  rw [ensure]
  split
  · simp [totalRows]
  · rfl

theorem totalRows_placeRow (height margin lh : ℚ) (r : String) (st : RState) :
    totalRows (placeRow height margin lh r st) = totalRows st + 1 := by
  have h := totalRows_ensure height margin lh st
  simp only [placeRow, totalRows, List.length_append, List.length_cons,
    List.length_nil] at h ⊢
  omega

theorem totalRows_rows_fold (height margin lh : ℚ) (rows : List String)
    (st : RState) :
    totalRows (rows.foldl (fun s r => placeRow height margin lh r s) st) =
      totalRows st + rows.length := by
  induction rows generalizing st with
  | nil => simp
  | cons r rs ih =>
    rw [List.foldl_cons, ih (placeRow height margin lh r st),
      totalRows_placeRow, List.length_cons]
    omega

theorem totalRows_renderParas (height margin lh : ℚ) (measure : String → ℚ)
    (pw : ℚ) (txts : List String) (st : RState) :
    totalRows (renderParas height margin lh measure pw txts st) =
      totalRows st + (txts.map (fun t => (paraRows measure pw t).length)).sum := by
  induction txts generalizing st with
  | nil => simp [renderParas]
  | cons t ts ih =>
    have hp : totalRows (para height margin lh measure pw t st) =
        totalRows st + (paraRows measure pw t).length :=
      totalRows_rows_fold height margin lh (paraRows measure pw t) st
    simp only [renderParas, List.foldl_cons] at ih ⊢
    rw [ih (para height margin lh measure pw t st), hp, List.map_cons,
      List.sum_cons]
    omega

theorem lineBlocks_stop {f : String}
    (hf : startsWithStr (jsTrim f) footerMarker = true) :
    ∀ (l1 l2 : List String), lineBlocks (l1 ++ f :: l2) = lineBlocks l1 := by
  intro l1
  induction l1 with
  | nil =>
    intro l2
    have hfe : ¬ jsTrim f = "" := by
      intro he
      rw [he] at hf
      exact absurd hf (by decide)
    simp only [List.nil_append, lineBlocks]
    rw [if_neg hfe, if_pos hf]
  | cons a l1 ih =>
    intro l2
    simp only [List.cons_append, lineBlocks, List.append_eq]
    by_cases h1 : jsTrim a = ""
    · rw [if_pos h1, if_pos h1, ih l2]
    · rw [if_neg h1, if_neg h1]
      by_cases h2 : startsWithStr (jsTrim a) footerMarker = true
      · rw [if_pos h2, if_pos h2]
      · rw [if_neg h2, if_neg h2, ih l2]

theorem sanitizeForPdf_head_not_ws (s : String) :
    (sanitizeForPdf s).data.head?.any Char.isWhitespace = false := by
  rw [sanitizeForPdf]
  rcases hd :
      dropTrailingWs ((s.data.filter allowedPdfChar).dropWhile Char.isWhitespace)
    with _ | ⟨a, m⟩
  · simp
  · rcases dropTrailingWs_eq_cons hd with ⟨l', hl', _⟩
    have ha : Char.isWhitespace a = false := dropWhile_head_not hl'
    simp [ha]

theorem testDigitMarker_ne_empty {t : String} (h : testDigitMarker t = true) :
    t ≠ "" := by
  intro he
  rw [he] at h
  exact absurd h (by decide)

theorem classify_digit {t : String} (hd : testDigitMarker t = true) :
    classify t = (Role.Heading, t) := by
  rw [classify, if_neg (testDigitMarker_ne_empty hd), if_pos hd]

theorem classify_heading_inv {t x : String}
    (h : classify t = (Role.Heading, x)) :
    testDigitMarker t = true ∧ x = t := by
  rw [classify] at h
  split_ifs at h with h0 h1 h2 h3 h4 <;> simp only [Prod.mk.injEq] at h
  · exact absurd h.1 (by decide)
  · exact ⟨h1, h.2.symm⟩
  · exact absurd h.1 (by decide)
  · exact absurd h.1 (by decide)
  · exact absurd h.1 (by decide)
  · exact absurd h.1 (by decide)

theorem classify_bullet_inv {t x : String}
    (h : classify t = (Role.Bullet, x)) :
    testLabel t = false ∧ testBullet t = true ∧ x = bulletTextOf t := by
  rw [classify] at h
  split_ifs at h with h0 h1 h2 h3 h4 <;> simp only [Prod.mk.injEq] at h
  · exact absurd h.1 (by decide)
  · exact absurd h.1 (by decide)
  · exact absurd h.1 (by decide)
  · exact absurd h.1 (by decide)
  · exact ⟨Bool.eq_false_iff.mpr h3, h4, h.2.symm⟩
  · exact absurd h.1 (by decide)

theorem labelColonTail_dTW (s3 : List Char) :
    labelColonTail (dropTrailingWs s3) = labelColonTail s3 := by
  rw [labelColonTail, labelColonTail, dropTrailingWs_idem]

theorem bulletTextOf_data (c : Char) (cs : List Char)
    (hb : isBulletChar c = true) :
    (bulletTextOf (String.mk (c :: cs))).data =
      '•' :: (if (dropTrailingWs (cs.dropWhile Char.isWhitespace)).isEmpty
              then []
              else ' ' :: dropTrailingWs (cs.dropWhile Char.isWhitespace)) := by
  have hwb : ('•' : Char).isWhitespace = false := by decide
  have hws : (' ' : Char).isWhitespace = true := by decide
  simp only [bulletTextOf, if_pos hb, jsTrim]
  show dropTrailingWs
      (('•' :: ' ' :: cs.dropWhile Char.isWhitespace).dropWhile Char.isWhitespace) = _
  rw [List.dropWhile_cons, if_neg (by simp [hwb])]
  rw [dropTrailingWs_cons, dropTrailingWs_cons]
  rw [hws, hwb]
  cases he : (dropTrailingWs (cs.dropWhile Char.isWhitespace)).isEmpty <;>
    simp [he]

theorem afterBullet_mk_cons (c : Char) (cs : List Char) :
    afterBullet (String.mk (c :: cs)) = if isBulletChar c then cs else c :: cs := rfl

theorem testBullet_mk_cons (c : Char) (cs : List Char) :
    testBullet (String.mk (c :: cs)) = isBulletChar c := rfl

theorem testDigitMarker_mk_cons {c : Char} (l : List Char)
    (hc : c.isDigit = false) : testDigitMarker (String.mk (c :: l)) = false := by
  simp [testDigitMarker, List.takeWhile_cons, hc]

theorem testUpperMarker_mk_cons {c : Char} (c2 : Char) (l : List Char)
    (hc : c.isUpper = false) :
    testUpperMarker (String.mk (c :: c2 :: l)) = false := by
  simp [testUpperMarker, hc]

theorem classify_heading_fix (t x : String)
    (h : classify t = (Role.Heading, x)) : classify x = (Role.Heading, x) := by
  obtain ⟨hdig, hx⟩ := classify_heading_inv h
  subst hx
  exact classify_digit hdig

theorem classify_bullet_fix (t x : String)
    (h : classify t = (Role.Bullet, x)) : classify x = (Role.Bullet, x) := by
  obtain ⟨hlab, hbul, hx⟩ := classify_bullet_inv h
  subst hx
  rcases hd : t.data with _ | ⟨c, cs⟩
  · rw [show t = "" from String.ext hd] at hbul
    exact absurd hbul (by decide)
  · rw [show t = String.mk (c :: cs) from String.ext hd] at hlab hbul ⊢
    have hb : isBulletChar c = true := by
      rw [testBullet_mk_cons] at hbul
      exact hbul
    rcases hv : dropTrailingWs (cs.dropWhile Char.isWhitespace) with _ | ⟨c', v'⟩
    · have hxe : bulletTextOf (String.mk (c :: cs)) = "•" := by
        apply String.ext
        rw [bulletTextOf_data c cs hb, hv]
        rfl
      rw [hxe]
      decide
    · obtain ⟨s3, hus, hv'⟩ := dropTrailingWs_eq_cons hv
      have hc' : Char.isWhitespace c' = false := dropWhile_head_not hus
      have hbx : bulletTextOf (String.mk (c :: cs)) =
          String.mk ('•' :: ' ' :: c' :: v') := by
        apply String.ext
        rw [bulletTextOf_data c cs hb, hv]
        rfl
      rw [hbx]
      have hlab' : (c'.isUpper && labelColonTail s3) = false := by
        have h0 := hlab
        simp only [testLabel, afterBullet_mk_cons, if_pos hb, hus] at h0
        exact h0
      have hidem : dropTrailingWs (c' :: v') = c' :: v' := by
        rw [← hv, dropTrailingWs_idem, hv]
      have hdig2 : testDigitMarker (String.mk ('•' :: ' ' :: c' :: v')) = false :=
        testDigitMarker_mk_cons _ (by decide)
      have hup2 : testUpperMarker (String.mk ('•' :: ' ' :: c' :: v')) = false :=
        testUpperMarker_mk_cons _ _ (by decide)
      have hlab2 : testLabel (String.mk ('•' :: ' ' :: c' :: v')) = false := by
        simp only [testLabel, afterBullet_mk_cons, if_pos (show isBulletChar '•' = true by decide)]
        rw [List.dropWhile_cons, if_pos (by decide), List.dropWhile_cons,
          if_neg (by simp [hc'])]
        show (c'.isUpper && labelColonTail v') = false
        rw [hv', labelColonTail_dTW]
        exact hlab'
      have hbul2 : testBullet (String.mk ('•' :: ' ' :: c' :: v')) = true := by
        rw [testBullet_mk_cons]
        decide
      have hdw2 : (' ' :: c' :: v').dropWhile Char.isWhitespace = c' :: v' := by
        rw [List.dropWhile_cons, if_pos (by decide), List.dropWhile_cons,
          if_neg (by simp [hc'])]
      have hbt2 : bulletTextOf (String.mk ('•' :: ' ' :: c' :: v')) =
          String.mk ('•' :: ' ' :: c' :: v') := by
        apply String.ext
        rw [bulletTextOf_data '•' (' ' :: c' :: v') (by decide), hdw2, hidem]
        simp
      rw [classify, if_neg (str_ne_empty_of_data_cons (show (String.mk ('•' :: ' ' :: c' :: v')).data = '•' :: (' ' :: c' :: v') from rfl)),
        if_neg (by simp [hdig2]), if_neg (by simp [hup2]),
        if_neg (by simp [hlab2]), if_pos hbul2, hbt2]

theorem randSuffix_lb {u : ℚ} (h0 : 0 ≤ u) : 1000 ≤ randSuffix u := by
  rw [randSuffix]
  refine Int.le_floor.mpr ?_
  push_cast
  nlinarith

theorem randSuffix_ub {u : ℚ} (h1 : u < 1) : randSuffix u ≤ 9999 := by
  rw [randSuffix]
  have h2 : Int.floor ((1000 : ℚ) + u * 9000) < 10000 := by
    refine Int.floor_lt.mpr ?_
    push_cast
    nlinarith
  omega

/-! ### The claims -/

/-- Claim C1: for every input string, maximum width and measurement
function, every row returned by the word-wrap engine measures at most
the maximum width, except that a row consisting of a single input token
(committed alone, unsplit, without error) may exceed it. -/
theorem c1_wrap_rows_fit (measure : String → ℚ) (maxW : ℚ) (txt r : String)
    (hr : r ∈ wrap measure maxW txt) :
    measure r ≤ maxW ∨ r ∈ jsSplitWs txt := by
  rcases hsp : jsSplitWs txt with _ | ⟨t0, ts⟩
  · exact absurd hsp (splitWsChars_ne_nil txt.data)
  · simp only [wrap] at hr
    rw [hsp, wrapGo_first] at hr
    exact wrapGo_mem measure maxW (t0 :: ts) ts t0 []
      (fun w hw => List.mem_cons_of_mem _ hw)
      (Or.inr (List.mem_cons_self _ _))
      (by intro x hx; simp at hx) r hr

theorem c1_wrap_rows_fit_witness :
    ("aaa" ∈ wrap (fun s => ((s.length : ℚ))) 5 "aaa bb c") ∧
      ((fun s => ((s.length : ℚ))) "aaa" ≤ 5 ∨ "aaa" ∈ jsSplitWs "aaa bb c") :=
  ⟨by decide,
    c1_wrap_rows_fit (fun s => ((s.length : ℚ))) 5 "aaa bb c" "aaa" (by decide)⟩

/-- Claim C2: `ensure` starts a new page exactly when the vertical
cursor minus the required space falls below the bottom margin, resetting
the cursor to the top margin; and the total number of rows drawn across
all pages equals the number of rows produced by wrapping the content
stream once — none dropped or duplicated at page boundaries. -/
theorem c2_pagination (height margin lh need : ℚ) (st : RState)
    (measure : String → ℚ) (pw : ℚ) (txts : List String) :
    (pageCount (ensure height margin need st) =
      if st.y - need < margin then pageCount st + 1 else pageCount st) ∧
    ((ensure height margin need st).y =
      if st.y - need < margin then height - margin else st.y) ∧
    totalRows (renderParas height margin lh measure pw txts st) =
      totalRows st + (txts.map (fun t => (paraRows measure pw t).length)).sum := by
  refine ⟨?_, ?_, totalRows_renderParas height margin lh measure pw txts st⟩
  · by_cases hc : st.y - need < margin
    · rw [ensure, if_pos hc, if_pos hc]
      rfl
    · rw [ensure, if_neg hc, if_neg hc]
  · by_cases hc : st.y - need < margin
    · rw [ensure, if_pos hc, if_pos hc]
    · rw [ensure, if_neg hc, if_neg hc]

/-- Claim C3: when the report's line stream contains a line starting
with the footer marker phrase, the flowable (DOCX) body stops at that
line, one system-generated italic footer block is appended, while the
fixed-layout (PDF) body wraps the full report text, footer included. -/
theorem c3_footer_asymmetry (reportText : String) (l1 l2 : List String)
    (f : String) (hsplit : docxLines reportText = l1 ++ f :: l2)
    (hf : startsWithStr (jsTrim f) footerMarker = true)
    (measure : String → ℚ) (pw : ℚ) (ts regRand : String) (count : ℕ) :
    docxParagraphs ts reportText regRand count =
      titlePara :: metaPara ts :: (lineBlocks l1 ++ [footerPara regRand count]) ∧
    (footerPara regRand count).italics = true ∧
    joinSp (paraRows measure pw reportText) =
      joinSp (jsSplitWs (sanitizeForPdf reportText)) := by
  refine ⟨?_, rfl, ?_⟩
  · rw [docxParagraphs, hsplit, lineBlocks_stop hf l1 l2]
  · exact joinSp_wrap_eq measure pw (sanitizeForPdf reportText)
      (sanitizeForPdf_head_not_ws reportText)

theorem c3_footer_asymmetry_witness :
    (docxLines "Body line\nThis report was prepared using X" =
      ["Body line"] ++ "This report was prepared using X" :: []) ∧
    (startsWithStr (jsTrim "This report was prepared using X") footerMarker = true) ∧
    (docxParagraphs "T" "Body line\nThis report was prepared using X" "R" 7 =
      titlePara :: metaPara "T" :: (lineBlocks ["Body line"] ++ [footerPara "R" 7]) ∧
    (footerPara "R" 7).italics = true ∧
    joinSp (paraRows (fun s => ((s.length : ℚ))) 100
        "Body line\nThis report was prepared using X") =
      joinSp (jsSplitWs (sanitizeForPdf "Body line\nThis report was prepared using X"))) :=
  ⟨by decide, by decide,
    c3_footer_asymmetry "Body line\nThis report was prepared using X"
      ["Body line"] [] "This report was prepared using X" (by decide) (by decide)
      (fun s => ((s.length : ℚ))) 100 "T" "R" 7⟩

/-- Claim C4 counterexample: the line `1. Query` is classified `Heading`
but its stored text is the whole line, which still matches the
numeric-marker pattern — the marker is not stripped. -/
theorem c4_counterexample :
    classify "1. Query" = (Role.Heading, "1. Query") ∧
      testDigitMarker "1. Query" = true := by decide

/-- Claim C4 (amended): a trimmed non-empty line beginning with one or
more digits followed by `)`, `.` or whitespace is classified `Heading`,
and the stored text is the entire line with the numeric marker retained
(not the stripped remainder). -/
theorem c4_heading_keeps_marker (t : String) (_htrim : jsTrim t = t)
    (hd : testDigitMarker t = true) : classify t = (Role.Heading, t) :=
  classify_digit hd

theorem c4_heading_keeps_marker_witness :
    (jsTrim "3) Scope" = "3) Scope" ∧ testDigitMarker "3) Scope" = true) ∧
      classify "3) Scope" = (Role.Heading, "3) Scope") :=
  ⟨⟨by decide, by decide⟩,
    c4_heading_keeps_marker "3) Scope" (by decide) (by decide)⟩

/-- Claim C5 counterexample: for a line starting with whitespace the
split produces a leading empty token that the wrap loop drops, so the
space-joined rows differ from the space-joined tokens. -/
theorem c5_counterexample :
    joinSp (wrap (fun s => ((s.length : ℚ))) 10 " a") ≠
      joinSp (jsSplitWs " a") := by decide

/-- Claim C5 (amended): for every input line that does not begin with
whitespace, concatenating the rows returned by the word-wrap engine with
single spaces equals the line's whitespace-split tokens rejoined with
single spaces — no token lost, duplicated or reordered. -/
theorem c5_rows_reconstruct (measure : String → ℚ) (maxW : ℚ) (txt : String)
    (h : txt.data.head?.any Char.isWhitespace = false) :
    joinSp (wrap measure maxW txt) = joinSp (jsSplitWs txt) :=
  joinSp_wrap_eq measure maxW txt h

theorem c5_rows_reconstruct_witness :
    (("aa bb cc" : String).data.head?.any Char.isWhitespace = false) ∧
      joinSp (wrap (fun s => ((s.length : ℚ))) 5 "aa bb cc") =
        joinSp (jsSplitWs "aa bb cc") :=
  ⟨by decide,
    c5_rows_reconstruct (fun s => ((s.length : ℚ))) 5 "aa bb cc" (by decide)⟩

/-- Claim C6 counterexample: `A. B. Scope` is classified `SubHeading`
with stripped text `B. Scope`, which matches the sub-heading marker
pattern again and is stripped again on re-classification — so
marker-stripping is not idempotent. -/
theorem c6_counterexample :
    classify "A. B. Scope" = (Role.SubHeading, "B. Scope") ∧
      testUpperMarker "B. Scope" = true ∧
      classify "B. Scope" = (Role.SubHeading, "Scope") := by decide

/-- Claim C6 (amended): re-classifying the stored text is a fixed point
(same role, same text) for `Heading` and `Bullet` lines; for
`SubHeading` and `Label` lines the stripped text may re-match a marker
pattern, so no-double-stripping does not hold in general. -/
theorem c6_heading_bullet_fixed (t x : String) :
    (classify t = (Role.Heading, x) → classify x = (Role.Heading, x)) ∧
      (classify t = (Role.Bullet, x) → classify x = (Role.Bullet, x)) :=
  ⟨classify_heading_fix t x, classify_bullet_fix t x⟩

theorem c6_heading_bullet_fixed_witness :
    classify "- item" = (Role.Bullet, "• item") ∧
      classify "• item" = (Role.Bullet, "• item") :=
  ⟨by decide, (c6_heading_bullet_fixed "- item" "• item").2 (by decide)⟩

/-- Claim C7: for a fixed timestamp and item count, the registration
code's date seed is the two-digit year, the zero-padded month and the
zero-padded day in that order, the random suffix lies in 1000–9999, and
the item count is the verbatim final segment of the `Reg. No.` line. -/
theorem c7_reg_code (y m d : ℕ) (u : ℚ) (count : ℕ)
    (h0 : 0 ≤ u) (h1 : u < 1) :
    regNoLine y m d u count =
      "Reg. No. AIVS/UK/" ++
        (dateSeed y m d ++ "-" ++ toString (randSuffix u)) ++
        "/" ++ Nat.repr count ∧
    dateSeed y m d = twoDigitYear y ++ pad2 m ++ pad2 d ∧
    1000 ≤ randSuffix u ∧ randSuffix u ≤ 9999 :=
  ⟨rfl, rfl, randSuffix_lb h0, randSuffix_ub h1⟩

theorem c7_reg_code_witness :
    ((0 : ℚ) ≤ 1/2 ∧ (1/2 : ℚ) < 1) ∧
      (regNoLine 2025 3 7 (1/2) 12 =
        "Reg. No. AIVS/UK/" ++
          (dateSeed 2025 3 7 ++ "-" ++ toString (randSuffix (1/2))) ++
          "/" ++ Nat.repr 12 ∧
      dateSeed 2025 3 7 = twoDigitYear 2025 ++ pad2 3 ++ pad2 7 ∧
      1000 ≤ randSuffix (1/2) ∧ randSuffix (1/2) ≤ 9999) :=
  ⟨⟨by norm_num, by norm_num⟩,
    c7_reg_code 2025 3 7 (1/2) 12 (by norm_num) (by norm_num)⟩

set_option maxRecDepth 4000 in
/-- Claim C8 counterexample: for the empty report the flowable document
does not consist of only the title, metadata and footer blocks — the
single empty line contributes an extra blank separator paragraph. -/
theorem c8_counterexample :
    docxParagraphs "T" "" "R" 0 ≠
      [titlePara, metaPara "T", footerPara "R" 0] := by decide

/-- Claim C8 (amended): an empty report renders without error: the
flowable document is exactly the title block, the metadata block, one
blank separator paragraph (from the single empty line) and the system
footer block — no other body blocks; the fixed-layout body still renders
as a single empty row. -/
theorem c8_empty_report (ts regRand : String) (count : ℕ)
    (measure : String → ℚ) (pw : ℚ) :
    docxParagraphs ts "" regRand count =
      [titlePara, metaPara ts, blankPara, footerPara regRand count] ∧
    paraRows measure pw "" = [""] := by
  constructor
  · rfl
  · simp [paraRows, sanitizeForPdf, wrap, jsSplitWs, splitWsChars, wrapGo]

/-- Claim C9: when generation and both renderers succeed, a failure of
the outbound email dispatch is caught and swallowed: the handler still
returns the success JSON with question, answer and timestamp, exactly as
when the send succeeds. -/
theorem c9_email_swallowed (q rt ts msg : String) (dp : List String)
    (dd : List DocxPara) (hq : q ≠ "") :
    askHandler (some q) (Except.ok rt) (Except.ok dp) (Except.ok dd)
        (Except.error msg) ts = AskResponse.ok q rt ts ∧
      askHandler (some q) (Except.ok rt) (Except.ok dp) (Except.ok dd)
          (Except.error msg) ts =
        askHandler (some q) (Except.ok rt) (Except.ok dp) (Except.ok dd)
          (Except.ok ()) ts := by
  refine ⟨?_, ?_⟩ <;> simp [askHandler, hq]

theorem c9_email_swallowed_witness :
    ("Q" ≠ "") ∧
      (askHandler (some "Q") (Except.ok "R") (Except.ok []) (Except.ok [])
          (Except.error "boom") "T" = AskResponse.ok "Q" "R" "T" ∧
        askHandler (some "Q") (Except.ok "R") (Except.ok []) (Except.ok [])
            (Except.error "boom") "T" =
          askHandler (some "Q") (Except.ok "R") (Except.ok []) (Except.ok [])
            (Except.ok ()) "T") :=
  ⟨by decide, c9_email_swallowed "Q" "R" "T" "boom" [] [] (by decide)⟩

/-- Claim C10: a thrown retrieval error is caught inside
`queryFaissIndex` and replaced by the empty-context result — joined text
`""` and count `0` — so report generation proceeds with an empty context
and a zero item count. -/
theorem c10_faiss_error_empty (e : String) :
    queryFaissIndex (Except.error e) = ("", 0) ∧
      contextOf (queryFaissIndex (Except.error e)).1 = "" :=
  ⟨rfl, rfl⟩
